import Mathlib

/-!
Shallow embedding of the `eo-scrapers` repository (UK electricity market
data scrapers) and verification of the frozen claims about it.

Each definition is translated from the Python source file named in its
doc comment.  Machine integers are modelled as `Int`/`Nat` (Python ints
are unbounded), `decimal.Decimal` values as `Rat` with the final
2-decimal-place quantization made explicit, and fallible code returns
`Except`.
-/

-- Decidable equality for `Except`, used to settle concrete runs of the
-- embedded functions by `decide`.
deriving instance DecidableEq for Except

namespace EoScrapers

/-! ## Settlement calendar: `src/eo_scrapers/utils/time.py` -/

/-- Model of Python `datetime.time` restricted to the fields the code
uses: an hour and a minute. -/
structure PyTime where
  hour : Int
  minute : Int
  deriving Repr, DecidableEq

/-- Errors raised on the settlement-calendar paths: the explicit
`ValueError("Settlement period must be 1-50, ...")` guard, and the
`ValueError` raised by the `datetime.time` constructor itself when the
hour is not in 0..23 or the minute not in 0..59. -/
inductive TimeError where
  | invalidPeriod
  | timeFieldOutOfRange
  deriving Repr, DecidableEq

/-- Python `datetime.time(hour=h, minute=m)`: raises `ValueError` unless
`0 <= h <= 23` and `0 <= m <= 59`. -/
def mkPyTime (h m : Int) : Except TimeError PyTime :=
  if 0 ≤ h ∧ h ≤ 23 ∧ 0 ≤ m ∧ m ≤ 59 then .ok ⟨h, m⟩
  else .error .timeFieldOutOfRange

/-- Embedding of `settlement_period_to_time` (utils/time.py lines 28-49):
checks `1 <= period <= 50`, computes `minutes = (period - 1) * 30`,
`hours = minutes // 60`, `mins = minutes % 60`, and builds
`time(hour=hours, minute=mins)`. -/
def settlement_period_to_time (period : Int) : Except TimeError PyTime :=
  if 1 ≤ period ∧ period ≤ 50 then
    let minutes := (period - 1) * 30
    mkPyTime (minutes / 60) (minutes % 60)
  else .error .invalidPeriod

/-- Embedding of `time_to_settlement_period` (utils/time.py lines 52-68):
`(t.hour * 60 + t.minute) // 30 + 1`. -/
def time_to_settlement_period (t : PyTime) : Int :=
  (t.hour * 60 + t.minute) / 30 + 1

/-! Calendar arithmetic needed by `get_periods_in_day`.  The Python code
relies on `zoneinfo.ZoneInfo("Europe/London")`; we model the Europe/London
UTC offset at local midnight from the tz database rules in force for the
modern era: the offset is +1 hour (BST) at local midnight of date `d`
exactly when `d` is strictly after the last Sunday of March of its year
(transition at 01:00 UTC on that Sunday) and not after the last Sunday of
October of its year (transition at 02:00 local on that Sunday). -/

/-- A calendar date, modelling Python `datetime.date`. -/
structure PyDate where
  year : Nat
  month : Nat
  day : Nat
  deriving Repr, DecidableEq

/-- Gregorian leap-year rule. -/
def isLeapYear (y : Nat) : Bool :=
  (y % 4 = 0 && y % 100 ≠ 0) || y % 400 = 0

/-- Number of days in a month of a given year. -/
def daysInMonth (y m : Nat) : Nat :=
  if m = 2 then (if isLeapYear y then 29 else 28)
  else if m = 4 ∨ m = 6 ∨ m = 9 ∨ m = 11 then 30
  else 31

/-- Python `d + timedelta(days=1)`. -/
def nextDay (d : PyDate) : PyDate :=
  if d.day < daysInMonth d.year d.month then ⟨d.year, d.month, d.day + 1⟩
  else if d.month < 12 then ⟨d.year, d.month + 1, 1⟩
  else ⟨d.year + 1, 1, 1⟩

/-- Serial day number of a date (days since 0000-03-01 in the proleptic
Gregorian calendar, civil-calendar algorithm); used to order dates and to
compute the day of week. -/
def civilDays (d : PyDate) : Nat :=
  let y := if d.month ≤ 2 then d.year - 1 else d.year
  let era := y / 400
  let yoe := y % 400
  let mp := if 2 < d.month then d.month - 3 else d.month + 9
  let doy := (153 * mp + 2) / 5 + (d.day - 1)
  let doe := yoe * 365 + yoe / 4 - yoe / 100 + doy
  era * 146097 + doe

/-- Day of week with Sunday = 0 (1970-01-01, serial 719468, was a
Thursday, and 719468 mod 7 = 1, so Sunday-indexed dow is serial + 3). -/
def dayOfWeek (d : PyDate) : Nat :=
  (civilDays d + 3) % 7

/-- The last Sunday of a 31-day month `m` of year `y`. -/
def lastSundayOf (y m : Nat) : PyDate :=
  ⟨y, m, 31 - dayOfWeek ⟨y, m, 31⟩⟩

/-- Europe/London UTC offset, in hours, in force at local midnight of
date `d` (tz database rules for the modern era: BST between 01:00 UTC on
the last Sunday of March and 02:00 local on the last Sunday of October). -/
def ukOffsetAtMidnight (d : PyDate) : Int :=
  if civilDays (lastSundayOf d.year 3) < civilDays d ∧
      civilDays d ≤ civilDays (lastSundayOf d.year 10) then 1 else 0

/-- The serial day number of Python's `d + timedelta(days=1)`: date
arithmetic in Python is ordinal arithmetic, so the next day is the date
whose proleptic-Gregorian serial number is one greater. -/
def next_day_ordinal (d : PyDate) : Int :=
  (civilDays d : Int) + 1

/-- Embedding of the `duration_hours` computed in `get_periods_in_day`
(utils/time.py lines 98-103).  Both `start` and `end` are aware
datetimes carrying the SAME `ZoneInfo` object (`UK_TZ`), and Python
subtracts two aware datetimes with the same `tzinfo` attribute
NAIVELY — the tzinfo is ignored and the wall-clock (ordinal) datetimes
are subtracted.  Both operands are midnights, so the difference is the
difference of the day ordinals: `next_day_ordinal d - civilDays d`
days, i.e. always exactly 24 hours, clock-change days included. -/
def duration_hours (d : PyDate) : Int :=
  24 * (next_day_ordinal d - (civilDays d : Int))

/-- The true elapsed real time from UK-local midnight of `d` to
UK-local midnight of the next day, in hours — the quantity the spec
and the function's docstring describe.  A local instant at offset `o`
is the UTC instant `local - o`, so the true span is
`24 - offset(next midnight) + offset(this midnight)`.  This is what
`get_periods_in_day` would compute if it subtracted UTC instants; the
code's same-tzinfo naive subtraction does not compute it. -/
def uk_true_duration_hours (d : PyDate) : Int :=
  24 + ukOffsetAtMidnight d - ukOffsetAtMidnight (nextDay d)

/-- The duration-to-count conditional of `get_periods_in_day`
(utils/time.py lines 105-110): `if == 24: 48 elif == 23: 46 else: 50`. -/
def periods_from_duration (h : Int) : Nat :=
  if h = 24 then 48
  else if h = 23 then 46
  else 50

/-- Embedding of `get_periods_in_day` (utils/time.py lines 85-110). -/
def get_periods_in_day (d : PyDate) : Nat :=
  periods_from_duration (duration_hours d)

/-! ## Decimal arithmetic

Python `decimal.Decimal` values are modelled as exact rationals.
`Decimal.quantize(Decimal("0.01"))` uses the default context rounding,
`ROUND_HALF_EVEN`; it is modelled by `roundHalfEven2` below.  Decimal
division (`/`) is exact up to the context precision of 28 significant
digits; it is modelled as exact rational division, which agrees with it
whenever the quotient is representable in 28 significant digits and in
every concrete instance appearing in this development. -/

/-- Round a rational to the nearest integer, ties to the even integer
(the `ROUND_HALF_EVEN` rule of Python `decimal`). -/
def roundHalfEvenInt (x : ℚ) : ℤ :=
  if x - ⌊x⌋ < 1/2 then ⌊x⌋
  else if 1/2 < x - ⌊x⌋ then ⌊x⌋ + 1
  else if ⌊x⌋ % 2 = 0 then ⌊x⌋ else ⌊x⌋ + 1

/-- Model of `Decimal.quantize(Decimal("0.01"))` with default context
rounding: round to 2 decimal places, ties to even. -/
def roundHalfEven2 (x : ℚ) : ℚ :=
  (roundHalfEvenInt (100 * x) : ℚ) / 100

/-! ## Aggregation: `src/eo_scrapers/clients/elexon.py`

`ElexonClient.daily_average` (lines 172-209) and
`ElexonClient.monthly_average` (lines 211-256) first fetch the prices for
the date (resp. the month) over HTTP and then run an identical
aggregation computation on the fetched price list.  The embedding takes
the fetched list of `p.price` values as a parameter and embeds the
aggregation computation; the date fields of the resulting aggregate
(which merely echo the arguments) are omitted. -/

/-- Model of `PriceAggregate` (models/price.py lines 133-158) restricted
to the fields the aggregation computes (the echoed date fields and the
`created_at` timestamp are omitted). -/
structure PriceAggregate where
  average_price : ℚ
  min_price : ℚ
  max_price : ℚ
  num_periods : ℕ
  price_type : String
  deriving Repr, DecidableEq

/-- Shared tail of `daily_average`/`monthly_average` (elexon.py lines
196-209 and 243-256): `if not price_values: raise ValueError(...)`, then
`avg_price = sum(price_values) / len(price_values)` and the
`PriceAggregate` construction with the average quantized to 2 decimal
places and `min`/`max` taken directly from the values. -/
def aggregate_values (price_type : String) (vals : List ℚ) :
    Except String PriceAggregate :=
  match vals with
  | [] => .error "No prices found"
  | v :: vs =>
      .ok { average_price := roundHalfEven2 ((v :: vs).sum / ((v :: vs).length : ℚ))
            min_price := vs.foldl min v
            max_price := vs.foldl max v
            num_periods := (v :: vs).length
            price_type := price_type }

/-- Branch structure of `daily_average` (elexon.py lines 186-209): for
`system_price` all fetched prices are used; for `day_ahead` the code
keeps `[p.price for p in prices if p.price > 0]`; any other
`price_type` raises `ValueError`. -/
def daily_average (price_type : String) (prices : List ℚ) :
    Except String PriceAggregate :=
  if price_type = "system_price" then
    aggregate_values price_type prices
  else if price_type = "day_ahead" then
    aggregate_values price_type (prices.filter fun p => decide (0 < p))
  else .error "Invalid price_type"

/-- Embedding of `monthly_average` (elexon.py lines 233-256): after
fetching the month's prices, the price selection and aggregation are
line-for-line the same computation as in `daily_average`. -/
def monthly_average (price_type : String) (prices : List ℚ) :
    Except String PriceAggregate :=
  if price_type = "system_price" then
    aggregate_values price_type prices
  else if price_type = "day_ahead" then
    aggregate_values price_type (prices.filter fun p => decide (0 < p))
  else .error "Invalid price_type"

/-- The list of price values kept by the aggregation for a given
`price_type` (specification-level description of the two branches,
used to state theorems about `daily_average`/`monthly_average`). -/
def kept_values (price_type : String) (prices : List ℚ) : List ℚ :=
  if price_type = "system_price" then prices
  else if price_type = "day_ahead" then prices.filter fun p => decide (0 < p)
  else []

/-! ## Price records: `src/eo_scrapers/models/price.py` -/

/-- Model of `SystemPrice` (models/price.py lines 22-57) restricted to
the fields `from_elexon_response` computes (the settlement date and the
`created_at`/`data_source` audit fields are omitted). -/
structure SystemPriceRec where
  settlement_period : ℤ
  system_sell_price : ℚ
  system_buy_price : ℚ
  price : ℚ
  deriving Repr, DecidableEq

/-- Embedding of `SystemPrice.from_elexon_response` (models/price.py
lines 59-81) composed with the pydantic `settlement_period` validation
(`Field(ge=1, le=50)` and `validate_settlement_period`, lines 40 and
47-57): `net_price = (ssp + sbp) / 2`, then construction with
`price=net_price.quantize(Decimal("0.01"))`, rejecting periods outside
1-50. -/
def from_elexon_response (ssp sbp : ℚ) (period : ℤ) :
    Except String SystemPriceRec :=
  let net_price := (ssp + sbp) / 2
  if 1 ≤ period ∧ period ≤ 50 then
    .ok { settlement_period := period
          system_sell_price := ssp
          system_buy_price := sbp
          price := roundHalfEven2 net_price }
  else .error "Settlement period must be 1-50"

/-! ## Base client request path: `src/eo_scrapers/clients/base.py`

`BaseClient._request` (lines 101-165) is decorated with
`tenacity.retry(retry=retry_if_exception_type((httpx.TimeoutException,
httpx.NetworkError)), stop=stop_after_attempt(3), ...)`.  The transport
is modelled as a function from the attempt index to that attempt's
outcome; the exponential wait between attempts has no observable effect
on the result and is not modelled. -/

/-- Outcome of a single HTTP attempt at the transport layer: the
`httpx` call either raises a timeout, raises a network error, or yields
a response with a status code and a body. -/
inductive Attempt where
  | timeout
  | netError
  | response (status : ℕ) (body : String)
  deriving Repr, DecidableEq

/-- The Python exception types that can escape one execution of the
`_request` body, at the granularity tenacity's
`retry_if_exception_type` discriminates on: the two `httpx` transport
exception types, `RateLimitError`, and `APIError` (base.py lines
26-38). -/
inductive PyExc where
  | httpxTimeout (msg : String)
  | httpxNetwork (msg : String)
  | rateLimitError (msg : String) (status : ℕ) (body : String)
  | apiError (msg : String) (status : Option ℕ) (body : Option String)
  deriving Repr, DecidableEq

/-- Tenacity's retry predicate as configured on `_request` (base.py
lines 101-105): retry exactly when the raised exception is an
`httpx.TimeoutException` or an `httpx.NetworkError`. -/
def tenacity_should_retry (e : PyExc) : Bool :=
  match e with
  | .httpxTimeout _ => true
  | .httpxNetwork _ => true
  | _ => false

/-- One execution of the `_request` body (base.py lines 128-165) on a
given transport outcome: a 429 response raises `RateLimitError` with
status and body; any other status `>= 400` raises `APIError` with
status and body; a transport timeout or network error is caught by the
`except` clauses at lines 160-165 and re-raised as `APIError` (with no
status code and no body). -/
def request_body (a : Attempt) : Except PyExc String :=
  match a with
  | .timeout => .error (.apiError "Request timeout" none none)
  | .netError => .error (.apiError "Network error" none none)
  | .response status body =>
      if status = 429 then
        .error (.rateLimitError "Rate limit exceeded" status body)
      else if 400 ≤ status then
        .error (.apiError ("API error: " ++ toString status) (some status) (some body))
      else .ok body

/-- The tenacity attempt loop around the `_request` body with
`stop_after_attempt(3)`: run the body; if it raises an exception
matching the retry predicate and fewer than 3 attempts have been made,
run it again, otherwise surface the outcome.  Returns the number of
attempts made together with the final outcome. -/
def tenacity_attempts (transport : ℕ → Attempt) (n : ℕ) :
    ℕ × Except PyExc String :=
  match request_body (transport n) with
  | .ok v => (n + 1, .ok v)
  | .error e =>
      if h : tenacity_should_retry e = true ∧ n + 1 < 3 then
        tenacity_attempts transport (n + 1)
      else (n + 1, .error e)
termination_by 3 - n
decreasing_by omega

/-- Embedding of the full decorated `_request` entry point: the
tenacity loop started at attempt 0. -/
def base_request (transport : ℕ → Attempt) : ℕ × Except PyExc String :=
  tenacity_attempts transport 0

/-! ## Fetch orchestrator: `src/eo_scrapers/scheduler.py` -/

/-- Per-source fetch statistics as returned by the writer save
methods. -/
structure Stats where
  fetched : ℕ
  inserted : ℕ
  updated : ℕ
  deriving Repr, DecidableEq

/-- An entry of the map returned by `fetch_all`: either the stats dict
of a successful source or the `error` dict recorded for a failed
source. -/
inductive SourceResult where
  | stats (s : Stats)
  | err (msg : String)
  deriving Repr, DecidableEq

/-- The `try/except` wrapper around one source in `fetch_all`: a
successful fetch contributes its stats, an exception is caught and
recorded as an error entry. -/
def to_source_result (r : Except String Stats) : SourceResult :=
  match r with
  | .ok s => .stats s
  | .error m => .err m

/-- Embedding of `DataFetcher.fetch_all` (scheduler.py lines 155-190):
each of the four source fetches runs inside its own `try/except`; the
outcome of each fetch (its stats, or the exception it raised) is a
parameter.  The returned association list models the `results` dict in
insertion order. -/
def fetch_all (sys da carbon fuel : Except String Stats) :
    List (String × SourceResult) :=
  [("system_prices", to_source_result sys),
   ("day_ahead_prices", to_source_result da),
   ("carbon_intensity", to_source_result carbon),
   ("fuel_mix", to_source_result fuel)]

/-! ## Backfill: `DataFetcher.backfill` (scheduler.py lines 192-276)

Dates are modelled as serial day numbers (`ℕ`), record lists as lists
over an abstract record type (`ℕ`).  Per-chunk and per-day fetch
outcomes, and the writer save outcomes, are parameters. -/

/-- The day-ahead chunking loop bounds (scheduler.py lines 225-234):
starting from `from_d`, each chunk is
`[current, min(current + 6 days, to_d)]` and the next chunk starts the
day after the previous chunk's end. -/
def day_ahead_chunks (from_d to_d : ℕ) : List (ℕ × ℕ) :=
  if _h : to_d < from_d then []
  else
    let batch_end := min (from_d + 6) to_d
    (from_d, batch_end) :: day_ahead_chunks (batch_end + 1) to_d
termination_by to_d + 1 - from_d
decreasing_by omega

/-- The `all_prices` accumulation of the day-ahead chunk loop
(scheduler.py lines 224-234): for each chunk in order, a successful
range fetch extends the accumulator and a failed one is logged and
skipped. -/
def day_ahead_stitched (fetch : ℕ → ℕ → Except String (List ℕ))
    (from_d to_d : ℕ) : List ℕ :=
  (day_ahead_chunks from_d to_d).foldl
    (fun acc c => acc ++ (match fetch c.1 c.2 with
                          | .ok ps => ps
                          | .error _ => [])) []

/-- The trace of `save_day_ahead_prices` calls made by the day-ahead
branch of `backfill` (scheduler.py lines 220-235): the loop only
accumulates into `all_prices`, and after it a single save call is made
with the accumulated list. -/
def day_ahead_branch_saves (fetch : ℕ → ℕ → Except String (List ℕ))
    (from_d to_d : ℕ) : List (List ℕ) :=
  [day_ahead_stitched fetch from_d to_d]

/-- The per-day accumulation loops of the carbon-intensity and
fuel-mix branches of `backfill` (scheduler.py lines 240-248 and
264-272): iterate day by day, extending the accumulator on success and
skipping failed days. -/
def per_day_stitched (fetch : ℕ → Except String (List ℕ))
    (from_d to_d : ℕ) : List ℕ :=
  if _h : to_d < from_d then []
  else
    (match fetch from_d with
     | .ok rs => rs
     | .error _ => []) ++ per_day_stitched fetch (from_d + 1) to_d
termination_by to_d + 1 - from_d
decreasing_by omega

/-- One source section of `backfill`: if the source is selected, its
records are saved; an exception raised by the save propagates (there is
no `try/except` around the sections), otherwise the source's stats are
appended to the results. -/
def run_save (selected : Bool) (name : String) (res : Except String Stats)
    (acc : List (String × Stats)) : Except String (List (String × Stats)) :=
  if selected then
    match res with
    | .ok s => .ok (acc ++ [(name, s)])
    | .error m => .error m
  else .ok acc

/-- Embedding of `DataFetcher.backfill` (scheduler.py lines 192-276):
the four source sections run in order; each section fetches (with
per-chunk/per-day failures skipped inside the loops) and then saves.
`sys_records` is the result of `get_system_prices_range`, which catches
its own per-day failures (elexon.py lines 117-129) and therefore always
yields a list.  Any exception raised by a save call propagates out of
`backfill`, abandoning the remaining sections. -/
def backfill (data_types : List String)
    (sys_records : List ℕ)
    (da_fetch : ℕ → ℕ → Except String (List ℕ))
    (carbon_fetch fuel_fetch : ℕ → Except String (List ℕ))
    (save_sys save_da save_carbon save_fuel : List ℕ → Except String Stats)
    (from_d to_d : ℕ) : Except String (List (String × Stats)) :=
  Except.bind
    (run_save (data_types.contains "system_prices") "system_prices"
      (save_sys sys_records) []) fun r1 =>
  Except.bind
    (run_save (data_types.contains "day_ahead_prices") "day_ahead_prices"
      (save_da (day_ahead_stitched da_fetch from_d to_d)) r1) fun r2 =>
  Except.bind
    (run_save (data_types.contains "carbon_intensity") "carbon_intensity"
      (save_carbon (per_day_stitched carbon_fetch from_d to_d)) r2) fun r3 =>
  run_save (data_types.contains "fuel_mix") "fuel_mix"
    (save_fuel (per_day_stitched fuel_fetch from_d to_d)) r3

/-! ## Persistence writer: `src/eo_scrapers/storage/supabase.py`

The Supabase client is modelled as explicit state: the `fetch_logs`
table and a trace of the upsert calls made against the data tables.
The four save methods have the same shape (lines 94-166, 168-234,
236-296, 298-364), differing in the target table and the row
conversion; records are abstracted to an opaque type since only their
number is observable in the stats.  The happy path is embedded; a
database exception would propagate after being recorded in the fetch
log, but every path of interest to the claims below precedes any
database call. -/

/-- A row of the `fetch_logs` table (the timestamp fields, which come
from the wall clock, are omitted). -/
structure FetchLogRow where
  fetch_type : String
  status : String
  records_fetched : ℕ
  records_inserted : ℕ
  records_updated : ℕ
  deriving Repr, DecidableEq

/-- The observable database state: the fetch-log rows and the trace of
upsert calls `(table, number of rows)`. -/
structure WriterState where
  fetch_logs : List FetchLogRow
  upsert_calls : List (String × ℕ)
  deriving Repr, DecidableEq

/-- Embedding of `SupabaseWriter._start_fetch_log` (supabase.py lines
57-71): insert a `running` row and return its id (ids are 1-based so
that Python's `if log_id:` truthiness test behaves as in production,
where serial ids start at 1). -/
def start_fetch_log (fetch_type : String) (st : WriterState) :
    ℕ × WriterState :=
  (st.fetch_logs.length + 1,
   { st with fetch_logs :=
       st.fetch_logs ++ [⟨fetch_type, "running", 0, 0, 0⟩] })

/-- Embedding of `SupabaseWriter._complete_fetch_log` (supabase.py
lines 73-92): update the row with the given id in place. -/
def complete_fetch_log (log_id f i u : ℕ) (status : String)
    (st : WriterState) : WriterState :=
  { st with fetch_logs :=
      st.fetch_logs.mapIdx fun idx row =>
        if idx + 1 = log_id then
          { row with status := status, records_fetched := f,
                     records_inserted := i, records_updated := u }
        else row }

/-- Common shape of the four save methods: return zero stats
immediately on an empty record list; otherwise optionally start a fetch
log, upsert the converted rows (the upsert result row count equals the
number of records sent), complete the log with the stats, and return
them. -/
def save_records (table : String) (records : List ℕ) (log_fetch : Bool)
    (st : WriterState) : Stats × WriterState :=
  if records.isEmpty then (⟨0, 0, 0⟩, st)
  else
    let idSt := if log_fetch then
        (let p := start_fetch_log table st; (some p.1, p.2))
      else (none, st)
    let st1 := { idSt.2 with upsert_calls :=
        idSt.2.upsert_calls ++ [(table, records.length)] }
    let stats : Stats := ⟨records.length, records.length, 0⟩
    let st2 := match idSt.1 with
      | some i => complete_fetch_log i stats.fetched stats.inserted
          stats.updated "success" st1
      | none => st1
    (stats, st2)

/-- Embedding of `SupabaseWriter.save_system_prices` (supabase.py lines
94-166). -/
def save_system_prices : List ℕ → Bool → WriterState → Stats × WriterState :=
  save_records "system_prices"

/-- Embedding of `SupabaseWriter.save_day_ahead_prices` (supabase.py
lines 168-234). -/
def save_day_ahead_prices : List ℕ → Bool → WriterState → Stats × WriterState :=
  save_records "day_ahead_prices"

/-- Embedding of `SupabaseWriter.save_carbon_intensity` (supabase.py
lines 236-296). -/
def save_carbon_intensity : List ℕ → Bool → WriterState → Stats × WriterState :=
  save_records "carbon_intensity"

/-- Embedding of `SupabaseWriter.save_fuel_mix` (supabase.py lines
298-364). -/
def save_fuel_mix : List ℕ → Bool → WriterState → Stats × WriterState :=
  save_records "fuel_mix"

/-! ## Theorems -/

/-- Sanity check of the offset model: the true UK-local
midnight-to-midnight span is 23 hours on the 2024 spring-forward date
(31 March), 25 hours on the 2024 fall-back date (27 October), and 24
hours on an ordinary date. -/
theorem uk_true_duration_sanity :
    uk_true_duration_hours ⟨2024, 3, 31⟩ = 23 ∧
    uk_true_duration_hours ⟨2024, 10, 27⟩ = 25 ∧
    uk_true_duration_hours ⟨2024, 6, 15⟩ = 24 := by
  refine ⟨by decide, by decide, by decide⟩

/-- C1 fails as stated: period 49 lies inside [1,50], yet
`settlement_period_to_time 49` does not succeed — the computed hour is
24, which the `datetime.time` constructor rejects. -/
theorem settlement_period_49_in_range_fails :
    (1 ≤ (49 : ℤ) ∧ (49 : ℤ) ≤ 50) ∧
    settlement_period_to_time 49 = .error .timeFieldOutOfRange ∧
    settlement_period_to_time 50 = .error .timeFieldOutOfRange := by
  refine ⟨by decide, by decide, by decide⟩

/-- C1 (amended): `settlement_period_to_time p` succeeds exactly for
periods 1-48, returning the time-of-day at offset `(p-1)*30` minutes,
and `time_to_settlement_period` round-trips it; the `InvalidPeriod`
guard fires exactly outside [1,50]; for periods 49 and 50 the guard
passes but the `datetime.time` construction fails (hour 24). -/
theorem settlement_period_time_amended (p : ℤ) :
    (1 ≤ p → p ≤ 48 →
      settlement_period_to_time p =
        .ok ⟨(p - 1) * 30 / 60, (p - 1) * 30 % 60⟩ ∧
      ((p - 1) * 30 / 60) * 60 + (p - 1) * 30 % 60 = (p - 1) * 30 ∧
      time_to_settlement_period ⟨(p - 1) * 30 / 60, (p - 1) * 30 % 60⟩ = p) ∧
    (settlement_period_to_time p = .error .invalidPeriod ↔ p < 1 ∨ 50 < p) ∧
    ((p = 49 ∨ p = 50) →
      settlement_period_to_time p = .error .timeFieldOutOfRange) := by
  refine ⟨?_, ?_, ?_⟩
  · intro h1 h2
    interval_cases p <;> exact ⟨by decide, by decide, by decide⟩
  · by_cases h : 1 ≤ p ∧ p ≤ 50
    · simp only [settlement_period_to_time, if_pos h, mkPyTime]
      constructor
      · intro hc
        split at hc <;> simp_all
      · intro hr
        exact absurd hr (by omega)
    · have hw : p < 1 ∨ 50 < p := by omega
      simp [settlement_period_to_time, if_neg h, hw]
  · rintro (rfl | rfl) <;> decide

/-- Witness for the amended C1 at period 48. -/
theorem settlement_period_time_amended_witness :
    settlement_period_to_time 48 =
      .ok ⟨((48 : ℤ) - 1) * 30 / 60, ((48 : ℤ) - 1) * 30 % 60⟩ ∧
    (((48 : ℤ) - 1) * 30 / 60) * 60 + ((48 : ℤ) - 1) * 30 % 60 =
      ((48 : ℤ) - 1) * 30 ∧
    time_to_settlement_period
      ⟨((48 : ℤ) - 1) * 30 / 60, ((48 : ℤ) - 1) * 30 % 60⟩ = 48 :=
  (settlement_period_time_amended 48).1 (by decide) (by decide)

/-- Helper: the modelled Europe/London offset at midnight is 0 or 1. -/
theorem ukOffsetAtMidnight_cases (d : PyDate) :
    ukOffsetAtMidnight d = 0 ∨ ukOffsetAtMidnight d = 1 := by
  unfold ukOffsetAtMidnight
  split
  · right; rfl
  · left; rfl

/-- C2 evaluated at the failing inputs: because `end - start` at
time.py line 103 subtracts two aware datetimes that share the same
`ZoneInfo` object — which Python subtracts naively, ignoring the
tzinfo — the computed duration is exactly 24 hours on every date, so
`get_periods_in_day` returns 48 on every date.  On the 2024
spring-forward date the true UK-local midnight-to-midnight span is 23
hours (the claim, the spec and the function's own docstring say 46
periods) and on the fall-back date 25 hours (they say 50), yet the
function returns 48 on both; the 46 and 50 branches, and with them any
chance of surfacing an unexpected duration, are unreachable. -/
theorem get_periods_in_day_always_48 :
    (∀ d : PyDate, duration_hours d = 24 ∧ get_periods_in_day d = 48) ∧
    uk_true_duration_hours ⟨2024, 3, 31⟩ = 23 ∧
    get_periods_in_day ⟨2024, 3, 31⟩ = 48 ∧
    uk_true_duration_hours ⟨2024, 10, 27⟩ = 25 ∧
    get_periods_in_day ⟨2024, 10, 27⟩ = 48 := by
  have h24 : ∀ d : PyDate, duration_hours d = 24 := by
    intro d
    unfold duration_hours next_day_ordinal
    ring
  refine ⟨?_, by decide, ?_, by decide, ?_⟩
  · intro d
    refine ⟨h24 d, ?_⟩
    simp [get_periods_in_day, periods_from_duration, h24 d]
  · simp [get_periods_in_day, periods_from_duration, h24]
  · simp [get_periods_in_day, periods_from_duration, h24]

/-- Helper: a `min`-fold lands on its seed or one of the list
elements (this is how Python's `min(values)` is computed). -/
theorem foldl_min_mem (vs : List ℚ) (v : ℚ) : vs.foldl min v ∈ v :: vs := by
  induction vs generalizing v with
  | nil => simp [List.foldl]
  | cons a as ih =>
    rcases List.mem_cons.mp (ih (min v a)) with h1 | h1
    · show as.foldl min (min v a) ∈ v :: a :: as
      rcases min_choice v a with hm | hm <;> rw [h1, hm] <;> simp
    · show as.foldl min (min v a) ∈ v :: a :: as
      exact List.mem_cons_of_mem v (List.mem_cons_of_mem a h1)

/-- Helper: a `min`-fold is bounded by its seed. -/
theorem foldl_min_le_init (vs : List ℚ) (v : ℚ) : vs.foldl min v ≤ v := by
  induction vs generalizing v with
  | nil => exact le_refl v
  | cons a as ih =>
    exact le_trans (ih (min v a)) (min_le_left v a)

/-- Helper: a `min`-fold is a lower bound of the seed and elements. -/
theorem foldl_min_le (vs : List ℚ) (v : ℚ) :
    ∀ x ∈ v :: vs, vs.foldl min v ≤ x := by
  induction vs generalizing v with
  | nil =>
    intro x hx
    rcases List.mem_cons.mp hx with rfl | h
    · exact le_refl x
    · exact absurd h (List.not_mem_nil x)
  | cons a as ih =>
    intro x hx
    show as.foldl min (min v a) ≤ x
    have hinit := foldl_min_le_init as (min v a)
    rcases List.mem_cons.mp hx with hxv | hx1
    · rw [hxv]
      exact le_trans hinit (min_le_left v a)
    · rcases List.mem_cons.mp hx1 with hxa | hx2
      · rw [hxa]
        exact le_trans hinit (min_le_right v a)
      · exact ih (min v a) x (List.mem_cons_of_mem _ hx2)

/-- Helper: a `max`-fold lands on its seed or one of the list
elements (this is how Python's `max(values)` is computed). -/
theorem foldl_max_mem (vs : List ℚ) (v : ℚ) : vs.foldl max v ∈ v :: vs := by
  induction vs generalizing v with
  | nil => simp [List.foldl]
  | cons a as ih =>
    rcases List.mem_cons.mp (ih (max v a)) with h1 | h1
    · show as.foldl max (max v a) ∈ v :: a :: as
      rcases max_choice v a with hm | hm <;> rw [h1, hm] <;> simp
    · show as.foldl max (max v a) ∈ v :: a :: as
      exact List.mem_cons_of_mem v (List.mem_cons_of_mem a h1)

/-- Helper: a `max`-fold dominates its seed. -/
theorem le_foldl_max_init (vs : List ℚ) (v : ℚ) : v ≤ vs.foldl max v := by
  induction vs generalizing v with
  | nil => exact le_refl v
  | cons a as ih =>
    exact le_trans (le_max_left v a) (ih (max v a))

/-- Helper: a `max`-fold is an upper bound of the seed and elements. -/
theorem le_foldl_max (vs : List ℚ) (v : ℚ) :
    ∀ x ∈ v :: vs, x ≤ vs.foldl max v := by
  induction vs generalizing v with
  | nil =>
    intro x hx
    rcases List.mem_cons.mp hx with rfl | h
    · exact le_refl x
    · exact absurd h (List.not_mem_nil x)
  | cons a as ih =>
    intro x hx
    show x ≤ as.foldl max (max v a)
    have hinit := le_foldl_max_init as (max v a)
    rcases List.mem_cons.mp hx with hxv | hx1
    · rw [hxv]
      exact le_trans (le_max_left v a) hinit
    · rcases List.mem_cons.mp hx1 with hxa | hx2
      · rw [hxa]
        exact le_trans (le_max_right v a) hinit
      · exact ih (max v a) x (List.mem_cons_of_mem _ hx2)

/-- Helper: what a successful run of the shared aggregation tail
guarantees about the produced aggregate. -/
theorem aggregate_values_ok (pt : String) (vals : List ℚ)
    (a : PriceAggregate) (h : aggregate_values pt vals = .ok a) :
    vals ≠ [] ∧
    a.average_price = roundHalfEven2 (vals.sum / (vals.length : ℚ)) ∧
    a.min_price ∈ vals ∧ a.max_price ∈ vals ∧
    (∀ x ∈ vals, a.min_price ≤ x ∧ x ≤ a.max_price) ∧
    a.num_periods = vals.length := by
  cases vals with
  | nil => exact absurd h (by simp [aggregate_values])
  | cons v vs =>
    simp only [aggregate_values, Except.ok.injEq] at h
    subst h
    refine ⟨by simp, rfl, foldl_min_mem vs v, foldl_max_mem vs v, ?_, rfl⟩
    intro x hx
    exact ⟨foldl_min_le vs v x hx, le_foldl_max vs v x hx⟩

/-- C3 fails as stated: a mean of exactly 0.125 is quantized by the
code's `Decimal.quantize(Decimal("0.01"))` (default `ROUND_HALF_EVEN`)
to 0.12, not to 0.13 as round-half-away-from-zero rounding would
demand. -/
theorem average_of_point125_rounds_down :
    daily_average "system_price" [(125 : ℚ) / 1000] =
      .ok ⟨3 / 25, 1 / 8, 1 / 8, 1, "system_price"⟩ ∧
    (3 / 25 : ℚ) = 12 / 100 ∧ (3 / 25 : ℚ) ≠ 13 / 100 := by
  refine ⟨?_, by norm_num, by norm_num⟩
  norm_num [daily_average, aggregate_values, roundHalfEven2, roundHalfEvenInt]

/-- C3 (amended): for every non-empty kept price sequence,
`daily_average` and `monthly_average` agree and compute the arithmetic
mean rounded to 2 decimal places with round-half-to-even (banker's)
decimal rounding, while `min_price` and `max_price` are taken directly
from the input values without rounding. -/
theorem average_amended (price_type : String) (prices : List ℚ)
    (a : PriceAggregate) (h : daily_average price_type prices = .ok a) :
    monthly_average price_type prices = .ok a ∧
    kept_values price_type prices ≠ [] ∧
    a.average_price =
      roundHalfEven2 ((kept_values price_type prices).sum /
        ((kept_values price_type prices).length : ℚ)) ∧
    a.min_price ∈ kept_values price_type prices ∧
    a.max_price ∈ kept_values price_type prices ∧
    (∀ x ∈ kept_values price_type prices,
      a.min_price ≤ x ∧ x ≤ a.max_price) ∧
    a.num_periods = (kept_values price_type prices).length := by
  by_cases h1 : price_type = "system_price"
  · subst h1
    have hk : kept_values "system_price" prices = prices := by
      simp [kept_values]
    have hda : daily_average "system_price" prices =
        aggregate_values "system_price" prices := rfl
    have hma : monthly_average "system_price" prices =
        aggregate_values "system_price" prices := rfl
    rw [hda] at h
    obtain ⟨hne, havg, hmin, hmax, hbnd, hnum⟩ := aggregate_values_ok _ _ _ h
    rw [hma, hk]
    exact ⟨h, hne, havg, hmin, hmax, hbnd, hnum⟩
  · by_cases h2 : price_type = "day_ahead"
    · subst h2
      have hk : kept_values "day_ahead" prices =
          prices.filter fun p => decide (0 < p) := by
        simp [kept_values]
      have hda : daily_average "day_ahead" prices =
          aggregate_values "day_ahead" (prices.filter fun p => decide (0 < p)) := rfl
      have hma : monthly_average "day_ahead" prices =
          aggregate_values "day_ahead" (prices.filter fun p => decide (0 < p)) := rfl
      rw [hda] at h
      obtain ⟨hne, havg, hmin, hmax, hbnd, hnum⟩ := aggregate_values_ok _ _ _ h
      rw [hma, hk]
      exact ⟨h, hne, havg, hmin, hmax, hbnd, hnum⟩
    · exfalso
      simp only [daily_average, if_neg h1, if_neg h2] at h
      exact Except.noConfusion h

/-- Witness for the amended C3: both averages on the prices `[1, 2]`
produce the mean 1.50 with unrounded min 1 and max 2. -/
theorem average_amended_witness :
    monthly_average "system_price" [1, 2] =
      .ok ⟨3 / 2, 1, 2, 2, "system_price"⟩ :=
  (average_amended "system_price" [1, 2]
    ⟨3 / 2, 1, 2, 2, "system_price"⟩ (by
      norm_num [daily_average, aggregate_values, roundHalfEven2,
        roundHalfEvenInt])).1

/-- C4 fails as stated: with price type `day_ahead` the code filters
with `p.price > 0`, so the negative entry of `[-10, 50, 100]` is also
dropped (2 periods remain), whereas excluding exactly the zero-valued
entries would keep all 3. -/
theorem day_ahead_filter_drops_negative :
    daily_average "day_ahead" [(-10 : ℚ), 50, 100] =
      .ok ⟨75, 50, 100, 2, "day_ahead"⟩ ∧
    (List.filter (fun p => decide (p ≠ 0)) [(-10 : ℚ), 50, 100]).length = 3 := by
  constructor
  · have h : daily_average "day_ahead" [(-10 : ℚ), 50, 100] =
        aggregate_values "day_ahead"
          (List.filter (fun p => decide (0 < p)) [(-10 : ℚ), 50, 100]) := rfl
    rw [h]
    norm_num [aggregate_values, roundHalfEven2, roundHalfEvenInt,
      List.filter_cons]
  · norm_num [List.filter_cons]

/-- C4 (amended): with price type `day_ahead`, exactly the entries
with non-positive price (zero or negative) are excluded before
averaging; with `system_price` all entries are included; day-ahead
aggregation of `[0, 50, 100]` yields average 75.00 over 2 periods in
both `daily_average` and `monthly_average`. -/
theorem day_ahead_filter_amended (prices : List ℚ) (x : ℚ) :
    (x ∈ kept_values "day_ahead" prices ↔ x ∈ prices ∧ 0 < x) ∧
    kept_values "system_price" prices = prices ∧
    daily_average "day_ahead" [0, 50, 100] =
      .ok ⟨75, 50, 100, 2, "day_ahead"⟩ ∧
    monthly_average "day_ahead" [0, 50, 100] =
      .ok ⟨75, 50, 100, 2, "day_ahead"⟩ := by
  have hd : daily_average "day_ahead" [(0 : ℚ), 50, 100] =
      aggregate_values "day_ahead"
        (List.filter (fun p => decide (0 < p)) [(0 : ℚ), 50, 100]) := rfl
  have hm : monthly_average "day_ahead" [(0 : ℚ), 50, 100] =
      aggregate_values "day_ahead"
        (List.filter (fun p => decide (0 < p)) [(0 : ℚ), 50, 100]) := rfl
  refine ⟨?_, by simp [kept_values], ?_, ?_⟩
  · simp [kept_values, List.mem_filter]
  · rw [hd]
    norm_num [aggregate_values, roundHalfEven2, roundHalfEvenInt,
      List.filter_cons]
  · rw [hm]
    norm_num [aggregate_values, roundHalfEven2, roundHalfEvenInt,
      List.filter_cons]

/-- Helper: half-even rounding never goes below the floor. -/
theorem floor_le_roundHalfEvenInt (x : ℚ) : ⌊x⌋ ≤ roundHalfEvenInt x := by
  unfold roundHalfEvenInt
  split_ifs <;> omega

/-- Helper: half-even rounding never goes above the ceiling. -/
theorem roundHalfEvenInt_le_ceil (x : ℚ) : roundHalfEvenInt x ≤ ⌈x⌉ := by
  unfold roundHalfEvenInt
  split_ifs with h1 h2 h3
  · exact Int.floor_le_ceil x
  · have hlt : (⌊x⌋ : ℚ) < x := by linarith
    exact Int.add_one_le_ceil_iff.mpr hlt
  · exact Int.floor_le_ceil x
  · have heq : x - ⌊x⌋ = 1 / 2 := le_antisymm (not_lt.mp h2) (not_lt.mp h1)
    have hlt : (⌊x⌋ : ℚ) < x := by linarith
    exact Int.add_one_le_ceil_iff.mpr hlt

/-- Helper: an integer lower bound survives half-even rounding. -/
theorem le_roundHalfEvenInt (n : ℤ) (x : ℚ) (h : (n : ℚ) ≤ x) :
    n ≤ roundHalfEvenInt x :=
  le_trans (Int.le_floor.mpr h) (floor_le_roundHalfEvenInt x)

/-- Helper: an integer upper bound survives half-even rounding. -/
theorem roundHalfEvenInt_le (n : ℤ) (x : ℚ) (h : x ≤ (n : ℚ)) :
    roundHalfEvenInt x ≤ n :=
  le_trans (roundHalfEvenInt_le_ceil x) (Int.ceil_le.mpr h)

/-- C5 fails as stated: with sell = buy = 100.005 (a value quoted at
more than 2 decimal places), the constructed price is the half-even
quantization 100.00, which is strictly below min(sell, buy). -/
theorem system_price_mid_tick_breaks_invariant :
    from_elexon_response ((20001 : ℚ) / 200) ((20001 : ℚ) / 200) 1 =
      .ok ⟨1, 20001 / 200, 20001 / 200, 100⟩ ∧
    ¬(min ((20001 : ℚ) / 200) ((20001 : ℚ) / 200) ≤ 100) := by
  constructor
  · have h : from_elexon_response ((20001 : ℚ) / 200) ((20001 : ℚ) / 200) 1 =
        .ok ⟨1, (20001 : ℚ) / 200, (20001 : ℚ) / 200,
          roundHalfEven2 (((20001 : ℚ) / 200 + (20001 : ℚ) / 200) / 2)⟩ := rfl
    rw [h]
    norm_num [roundHalfEven2, roundHalfEvenInt]
  · norm_num

/-- C5 (amended): whenever the sell and buy prices are quoted at 2
decimal places (integer numbers of pennies), the constructed record
satisfies `min(sell, buy) <= price <= max(sell, buy)`; construction
with a settlement period outside [1,50] (e.g. 0 or 51) fails; and
sell = 100, buy = 110 gives price exactly 105.00. -/
theorem from_elexon_price_invariant :
    (∀ (a b p : ℤ) (r : SystemPriceRec),
      from_elexon_response ((a : ℚ) / 100) ((b : ℚ) / 100) p = .ok r →
      min ((a : ℚ) / 100) ((b : ℚ) / 100) ≤ r.price ∧
      r.price ≤ max ((a : ℚ) / 100) ((b : ℚ) / 100)) ∧
    (∀ ssp sbp : ℚ,
      from_elexon_response ssp sbp 0 =
        .error "Settlement period must be 1-50" ∧
      from_elexon_response ssp sbp 51 =
        .error "Settlement period must be 1-50") ∧
    from_elexon_response 100 110 1 = .ok ⟨1, 100, 110, 105⟩ := by
  refine ⟨?_, fun ssp sbp => ⟨rfl, rfl⟩, ?_⟩
  · intro a b p r h
    simp only [from_elexon_response] at h
    split at h
    · simp only [Except.ok.injEq] at h
      subst h
      have hkey : (100 : ℚ) * (((a : ℚ) / 100 + (b : ℚ) / 100) / 2) =
          ((a : ℚ) + (b : ℚ)) / 2 := by ring
      show min ((a : ℚ) / 100) ((b : ℚ) / 100) ≤
          roundHalfEven2 (((a : ℚ) / 100 + (b : ℚ) / 100) / 2) ∧
        roundHalfEven2 (((a : ℚ) / 100 + (b : ℚ) / 100) / 2) ≤
          max ((a : ℚ) / 100) ((b : ℚ) / 100)
      rw [roundHalfEven2, hkey]
      rcases le_total a b with hab | hab
      · have habQ : (a : ℚ) ≤ (b : ℚ) := by exact_mod_cast hab
        have hminQ : min ((a : ℚ) / 100) ((b : ℚ) / 100) = (a : ℚ) / 100 :=
          min_eq_left (by linarith)
        have hmaxQ : max ((a : ℚ) / 100) ((b : ℚ) / 100) = (b : ℚ) / 100 :=
          max_eq_right (by linarith)
        have hlo : a ≤ roundHalfEvenInt (((a : ℚ) + (b : ℚ)) / 2) :=
          le_roundHalfEvenInt a _ (by linarith)
        have hhi : roundHalfEvenInt (((a : ℚ) + (b : ℚ)) / 2) ≤ b :=
          roundHalfEvenInt_le b _ (by linarith)
        have hloQ : (a : ℚ) ≤
            (roundHalfEvenInt (((a : ℚ) + (b : ℚ)) / 2) : ℚ) := by
          exact_mod_cast hlo
        have hhiQ : (roundHalfEvenInt (((a : ℚ) + (b : ℚ)) / 2) : ℚ) ≤
            (b : ℚ) := by
          exact_mod_cast hhi
        rw [hminQ, hmaxQ]
        constructor <;> linarith
      · have habQ : (b : ℚ) ≤ (a : ℚ) := by exact_mod_cast hab
        have hminQ : min ((a : ℚ) / 100) ((b : ℚ) / 100) = (b : ℚ) / 100 :=
          min_eq_right (by linarith)
        have hmaxQ : max ((a : ℚ) / 100) ((b : ℚ) / 100) = (a : ℚ) / 100 :=
          max_eq_left (by linarith)
        have hlo : b ≤ roundHalfEvenInt (((a : ℚ) + (b : ℚ)) / 2) :=
          le_roundHalfEvenInt b _ (by linarith)
        have hhi : roundHalfEvenInt (((a : ℚ) + (b : ℚ)) / 2) ≤ a :=
          roundHalfEvenInt_le a _ (by linarith)
        have hloQ : (b : ℚ) ≤
            (roundHalfEvenInt (((a : ℚ) + (b : ℚ)) / 2) : ℚ) := by
          exact_mod_cast hlo
        have hhiQ : (roundHalfEvenInt (((a : ℚ) + (b : ℚ)) / 2) : ℚ) ≤
            (a : ℚ) := by
          exact_mod_cast hhi
        rw [hminQ, hmaxQ]
        constructor <;> linarith
    · exact absurd h (by simp)
  · have h : from_elexon_response (100 : ℚ) 110 1 =
        .ok ⟨1, 100, 110, roundHalfEven2 (((100 : ℚ) + 110) / 2)⟩ := rfl
    rw [h]
    norm_num [roundHalfEven2, roundHalfEvenInt]

/-- Witness for the amended C5 at sell = 100.00, buy = 110.00 (10000
and 11000 pennies), period 1. -/
theorem from_elexon_price_invariant_witness :
    min (((10000 : ℤ) : ℚ) / 100) (((11000 : ℤ) : ℚ) / 100) ≤ (105 : ℚ) ∧
    (105 : ℚ) ≤ max (((10000 : ℤ) : ℚ) / 100) (((11000 : ℤ) : ℚ) / 100) := by
  have h := from_elexon_price_invariant.1 10000 11000 1 ⟨1, 100, 110, 105⟩
    (by
      have heq : from_elexon_response (((10000 : ℤ) : ℚ) / 100)
          (((11000 : ℤ) : ℚ) / 100) 1 =
          .ok ⟨1, ((10000 : ℤ) : ℚ) / 100, ((11000 : ℤ) : ℚ) / 100,
            roundHalfEven2 ((((10000 : ℤ) : ℚ) / 100 +
              ((11000 : ℤ) : ℚ) / 100) / 2)⟩ := rfl
      rw [heq]
      norm_num [roundHalfEven2, roundHalfEvenInt])
  simpa using h

/-- Helper: every exception the `_request` body can raise has already
been converted away from the `httpx` types tenacity retries on — the
`except` clauses re-raise transport failures as `APIError`. -/
theorem request_body_error_not_retryable (a : Attempt) (e : PyExc)
    (h : request_body a = .error e) : tenacity_should_retry e = false := by
  cases a with
  | timeout =>
    simp only [request_body, Except.error.injEq] at h
    subst h
    rfl
  | netError =>
    simp only [request_body, Except.error.injEq] at h
    subst h
    rfl
  | response status body =>
    simp only [request_body] at h
    split at h
    · simp only [Except.error.injEq] at h
      subst h
      rfl
    · split at h
      · simp only [Except.error.injEq] at h
        subst h
        rfl
      · exact Except.noConfusion h

/-- C6 evaluated at the failing input: a transport whose first attempt
times out is surfaced after exactly one attempt as a generic
`APIError` — the `except httpx.TimeoutException` clause inside the
body converts the exception before tenacity's
`retry_if_exception_type((TimeoutException, NetworkError))` can match
it, so no transient failure is ever retried.  The parts of the claim
about 429 and other 4xx/5xx responses do hold and are also evaluated
here. -/
theorem base_request_never_retries :
    base_request (fun n => if n = 0 then .timeout else .response 200 "ok") =
      (1, .error (.apiError "Request timeout" none none)) ∧
    (∀ transport, (base_request transport).1 = 1) ∧
    base_request (fun _ => .response 429 "slow down") =
      (1, .error (.rateLimitError "Rate limit exceeded" 429 "slow down")) ∧
    base_request (fun _ => .response 500 "boom") =
      (1, .error (.apiError "API error: 500" (some 500) (some "boom"))) := by
  refine ⟨?_, ?_, ?_, ?_⟩
  · rw [base_request, tenacity_attempts]
    simp [request_body, tenacity_should_retry]
  · intro transport
    rw [base_request, tenacity_attempts]
    cases hb : request_body (transport 0) with
    | ok v => simp
    | error e =>
      have hr := request_body_error_not_retryable (transport 0) e hb
      simp [hr]
  · rw [base_request, tenacity_attempts]
    simp [request_body, tenacity_should_retry]
  · rw [base_request, tenacity_attempts]
    simp only [request_body, tenacity_should_retry]
    norm_num
    rfl

/-- C7: `fetch_all` always returns an entry for all four sources in
order; a failing source's entry is the recorded error message, and a
succeeding source's entry is its stats, independently of the other
sources' outcomes. -/
theorem fetch_all_isolates_sources (sys da carbon fuel : Except String Stats) :
    (fetch_all sys da carbon fuel).map Prod.fst =
      ["system_prices", "day_ahead_prices", "carbon_intensity", "fuel_mix"] ∧
    (fetch_all sys da carbon fuel).lookup "system_prices" =
      some (to_source_result sys) ∧
    (fetch_all sys da carbon fuel).lookup "day_ahead_prices" =
      some (to_source_result da) ∧
    (fetch_all sys da carbon fuel).lookup "carbon_intensity" =
      some (to_source_result carbon) ∧
    (fetch_all sys da carbon fuel).lookup "fuel_mix" =
      some (to_source_result fuel) ∧
    (∀ s, to_source_result (.ok s) = .stats s) ∧
    (∀ m, to_source_result (.error m) = .err m) :=
  ⟨rfl, rfl, rfl, rfl, rfl, fun _ => rfl, fun _ => rfl⟩

/-- C10: every writer save method called on an empty record list
returns zero stats and leaves the database state — the fetch-log table
and the upsert trace — completely unchanged, no matter whether fetch
logging was requested. -/
theorem save_empty_returns_zero_and_keeps_state
    (log_fetch : Bool) (st : WriterState) :
    save_system_prices [] log_fetch st = (⟨0, 0, 0⟩, st) ∧
    save_day_ahead_prices [] log_fetch st = (⟨0, 0, 0⟩, st) ∧
    save_carbon_intensity [] log_fetch st = (⟨0, 0, 0⟩, st) ∧
    save_fuel_mix [] log_fetch st = (⟨0, 0, 0⟩, st) :=
  ⟨rfl, rfl, rfl, rfl⟩

/-- Helper: the chunk loop produces nothing when the range is empty. -/
theorem chunks_nil (f t : ℕ) (h : t < f) : day_ahead_chunks f t = [] := by
  rw [day_ahead_chunks]
  simp [h]

/-- Helper: one unfolding of the chunk loop on a non-empty range. -/
theorem chunks_cons (f t : ℕ) (h : f ≤ t) :
    day_ahead_chunks f t =
      (f, min (f + 6) t) :: day_ahead_chunks (min (f + 6) t + 1) t := by
  rw [day_ahead_chunks]
  simp [Nat.not_lt.mpr h]

/-- Helper: the chunk list of a non-empty range is non-empty. -/
theorem chunks_ne_nil (f t : ℕ) (h : f ≤ t) : day_ahead_chunks f t ≠ [] := by
  rw [chunks_cons f t h]
  simp

/-- Helper: every chunk stays inside the range and spans at most 7
days. -/
theorem chunks_bounds (f t : ℕ) :
    ∀ c ∈ day_ahead_chunks f t,
      f ≤ c.1 ∧ c.1 ≤ c.2 ∧ c.2 ≤ t ∧ c.2 ≤ c.1 + 6 := by
  induction f, t using day_ahead_chunks.induct with
  | case1 f t h =>
    rw [chunks_nil f t h]
    intro c hc
    exact absurd hc (List.not_mem_nil c)
  | case2 f t h be ih =>
    rw [chunks_cons f t (Nat.not_lt.mp h)]
    intro c hc
    rcases List.mem_cons.mp hc with hc1 | hc2
    · subst hc1
      refine ⟨le_refl f, ?_, ?_, ?_⟩
      · show f ≤ min (f + 6) t
        omega
      · show min (f + 6) t ≤ t
        omega
      · show min (f + 6) t ≤ f + 6
        omega
    · obtain ⟨h1, h2, h3, h4⟩ := ih c hc2
      have hf : f ≤ min (f + 6) t + 1 := by omega
      exact ⟨le_trans hf h1, h2, h3, h4⟩

/-- Helper: the first chunk begins at the start of the range. -/
theorem chunks_head_fst (f t : ℕ) (h : f ≤ t) :
    (day_ahead_chunks f t).head?.map Prod.fst = some f := by
  rw [chunks_cons f t h]
  rfl

/-- Helper: consecutive chunks abut — each starts the day after the
previous one ends. -/
theorem chunks_chain (f t : ℕ) :
    List.Chain' (fun a b : ℕ × ℕ => b.1 = a.2 + 1) (day_ahead_chunks f t) := by
  induction f, t using day_ahead_chunks.induct with
  | case1 f t h =>
    rw [chunks_nil f t h]
    exact List.chain'_nil
  | case2 f t h be ih =>
    rw [chunks_cons f t (Nat.not_lt.mp h)]
    rw [List.chain'_cons']
    refine ⟨?_, ih⟩
    intro b hb
    by_cases hrec : min (f + 6) t + 1 ≤ t
    · rw [chunks_cons _ t hrec] at hb
      simp only [List.head?_cons, Option.mem_def, Option.some.injEq] at hb
      subst hb
      rfl
    · rw [chunks_nil _ t (by omega)] at hb
      simp at hb

/-- Helper: the last chunk ends at the end of the range. -/
theorem chunks_last_snd (f t : ℕ) :
    f ≤ t → (day_ahead_chunks f t).getLast?.map Prod.snd = some t := by
  induction f, t using day_ahead_chunks.induct with
  | case1 f t h =>
    intro hle
    omega
  | case2 f t h be ih =>
    intro hle
    rw [chunks_cons f t (Nat.not_lt.mp h)]
    by_cases hrec : min (f + 6) t + 1 ≤ t
    · have hlast := ih hrec
      cases hgl : (day_ahead_chunks (min (f + 6) t + 1) t).getLast? with
      | none =>
        rw [hgl] at hlast
        exact absurd hlast (by simp)
      | some c =>
        rw [hgl] at hlast
        rw [List.getLast?_cons, hgl]
        simpa using hlast
    · have hmin : min (f + 6) t = t := by omega
      rw [chunks_nil _ t (by omega), hmin]
      rfl

/-- Helper: a range of 8 days or more produces at least 2 chunks. -/
theorem chunks_two_of_eight (f t : ℕ) (h : f + 7 ≤ t) :
    2 ≤ (day_ahead_chunks f t).length := by
  rw [chunks_cons f t (by omega)]
  have hne := chunks_ne_nil (min (f + 6) t + 1) t (by omega)
  have hpos := List.length_pos.mpr hne
  simp only [List.length_cons]
  omega

/-- Helper: a left fold that appends per element is the concatenation
of the per-element results after the initial accumulator. -/
theorem foldl_append_eq_flatten (g : ℕ × ℕ → List ℕ) :
    ∀ (l : List (ℕ × ℕ)) (acc : List ℕ),
      l.foldl (fun a c => a ++ g c) acc = acc ++ (l.map g).flatten := by
  intro l
  induction l with
  | nil =>
    intro acc
    simp
  | cons c cs ih =>
    intro acc
    simp [ih, List.append_assoc]

/-- Helper: the chunk loop's accumulator is the concatenation of the
successful chunk fetches, in chunk order. -/
theorem stitched_eq_flatten (fetch : ℕ → ℕ → Except String (List ℕ))
    (f t : ℕ) :
    day_ahead_stitched fetch f t =
      ((day_ahead_chunks f t).map fun c =>
        match fetch c.1 c.2 with
        | .ok ps => ps
        | .error _ => []).flatten := by
  rw [day_ahead_stitched,
    foldl_append_eq_flatten (fun c =>
      match fetch c.1 c.2 with
      | .ok ps => ps
      | .error _ => [])]
  simp

/-- C8: day-ahead backfill splits `[f, t]` into consecutive chunks of
at most 7 days (first chunk starts at `f`, last ends at `t`, each next
chunk starts the day after the previous ends, and a range of 8 or more
days yields at least two chunks), and performs exactly one save call,
whose argument is the concatenation of the successful chunk fetches
with failed chunks skipped. -/
theorem backfill_day_ahead_chunking (f t : ℕ)
    (fetch : ℕ → ℕ → Except String (List ℕ)) (h : f ≤ t) :
    (∀ c ∈ day_ahead_chunks f t,
      c.1 ≤ c.2 ∧ c.2 ≤ c.1 + 6 ∧ f ≤ c.1 ∧ c.2 ≤ t) ∧
    List.Chain' (fun a b : ℕ × ℕ => b.1 = a.2 + 1) (day_ahead_chunks f t) ∧
    (day_ahead_chunks f t).head?.map Prod.fst = some f ∧
    (day_ahead_chunks f t).getLast?.map Prod.snd = some t ∧
    (f + 7 ≤ t → 2 ≤ (day_ahead_chunks f t).length) ∧
    day_ahead_branch_saves fetch f t =
      [((day_ahead_chunks f t).map fun c =>
          match fetch c.1 c.2 with
          | .ok ps => ps
          | .error _ => []).flatten] := by
  refine ⟨?_, chunks_chain f t, chunks_head_fst f t h, chunks_last_snd f t h,
    chunks_two_of_eight f t, ?_⟩
  · intro c hc
    obtain ⟨h1, h2, h3, h4⟩ := chunks_bounds f t c hc
    exact ⟨h2, h4, h1, h3⟩
  · rw [day_ahead_branch_saves, stitched_eq_flatten]

/-- Witness for C8 over the 8-day range `[0, 7]`: at least two chunked
requests are issued. -/
theorem backfill_day_ahead_chunking_witness :
    2 ≤ (day_ahead_chunks 0 7).length :=
  (backfill_day_ahead_chunking 0 7 (fun _ _ => .ok []) (by decide)).2.2.2.2.1
    (by decide)

/-- C9 fails as stated: with all four sources selected, a failing
`save_system_prices` makes the whole `backfill` call raise — no stats
map is returned at all, and the remaining three sources never run,
because `backfill` has no per-source `try/except` like `fetch_all`
does. -/
theorem backfill_save_failure_aborts_all :
    backfill ["system_prices", "day_ahead_prices", "carbon_intensity",
        "fuel_mix"]
      [1] (fun _ _ => .ok []) (fun _ => .ok []) (fun _ => .ok [])
      (fun _ => .error "db down") (fun _ => .ok ⟨1, 1, 0⟩)
      (fun _ => .ok ⟨1, 1, 0⟩) (fun _ => .ok ⟨1, 1, 0⟩) 0 0 =
      .error "db down" ∧
    ∀ res, backfill ["system_prices", "day_ahead_prices", "carbon_intensity",
        "fuel_mix"]
      [1] (fun _ _ => .ok []) (fun _ => .ok []) (fun _ => .ok [])
      (fun _ => .error "db down") (fun _ => .ok ⟨1, 1, 0⟩)
      (fun _ => .ok ⟨1, 1, 0⟩) (fun _ => .ok ⟨1, 1, 0⟩) 0 0 ≠ .ok res := by
  refine ⟨rfl, ?_⟩
  intro res h
  exact Except.noConfusion (rfl.symm.trans h)

/-- C9 (amended): `backfill` does not isolate per-source failures.
With all four sources selected, if every save succeeds the stats map
contains an entry for each source in order, but if saving the first
source fails, the exception propagates and the whole call errors —
the remaining sources are never run or recorded.  (Per-chunk and
per-day fetch failures inside the loops are still skipped, which is
reflected in the stitched save arguments.) -/
theorem backfill_no_isolation
    (sys_records : List ℕ)
    (da_fetch : ℕ → ℕ → Except String (List ℕ))
    (carbon_fetch fuel_fetch : ℕ → Except String (List ℕ))
    (save_sys save_da save_carbon save_fuel : List ℕ → Except String Stats)
    (from_d to_d : ℕ) :
    (∀ m, save_sys sys_records = .error m →
      backfill ["system_prices", "day_ahead_prices", "carbon_intensity",
        "fuel_mix"] sys_records da_fetch carbon_fetch fuel_fetch
        save_sys save_da save_carbon save_fuel from_d to_d = .error m) ∧
    (∀ s1 s2 s3 s4,
      save_sys sys_records = .ok s1 →
      save_da (day_ahead_stitched da_fetch from_d to_d) = .ok s2 →
      save_carbon (per_day_stitched carbon_fetch from_d to_d) = .ok s3 →
      save_fuel (per_day_stitched fuel_fetch from_d to_d) = .ok s4 →
      backfill ["system_prices", "day_ahead_prices", "carbon_intensity",
        "fuel_mix"] sys_records da_fetch carbon_fetch fuel_fetch
        save_sys save_da save_carbon save_fuel from_d to_d =
        .ok [("system_prices", s1), ("day_ahead_prices", s2),
             ("carbon_intensity", s3), ("fuel_mix", s4)]) := by
  constructor
  · intro m hm
    simp [backfill, run_save, hm, Except.bind]
  · intro s1 s2 s3 s4 h1 h2 h3 h4
    simp [backfill, run_save, h1, h2, h3, h4, Except.bind]

/-- Witness for the amended C9: a concrete failing first save aborts
the call, and a concrete all-success run reports all four sources. -/
theorem backfill_no_isolation_witness :
    backfill ["system_prices", "day_ahead_prices", "carbon_intensity",
        "fuel_mix"]
      [] (fun _ _ => .ok []) (fun _ => .ok []) (fun _ => .ok [])
      (fun _ => .error "boom") (fun _ => .ok ⟨0, 0, 0⟩)
      (fun _ => .ok ⟨0, 0, 0⟩) (fun _ => .ok ⟨0, 0, 0⟩) 0 0 = .error "boom" :=
  (backfill_no_isolation [] (fun _ _ => .ok []) (fun _ => .ok [])
    (fun _ => .ok []) (fun _ => .error "boom") (fun _ => .ok ⟨0, 0, 0⟩)
    (fun _ => .ok ⟨0, 0, 0⟩) (fun _ => .ok ⟨0, 0, 0⟩) 0 0).1 "boom" rfl

end EoScrapers
